import Mathlib

set_option linter.unusedVariables false

/-!
Verification development for the API-key resolution and request-proxying
contract of the my-ai-app repository.

JavaScript strings are modelled as lists of characters (the code only
manipulates ASCII data); JavaScript dynamic values are modelled by a small
inductive type covering exactly the shapes the code distinguishes with
typeof / truthiness tests.  Asynchronous functions that can reject are
modelled with Except; file-system reads are modelled by an inductive of
the outcomes the code branches on.
-/

/-- JavaScript strings, modelled as lists of characters. -/
abbrev JStr := List Char

/-- The character list of a Lean string literal. -/
def jstrOf (s : String) : JStr := s.data

/-- ASCII whitespace recognised by JavaScript trim and the regex class \s
(space, tab, line feed, carriage return, vertical tab, form feed). -/
def isJsSpace (c : Char) : Bool :=
  c == ' ' || c == '\t' || c == '\n' || c == '\r' || c == '\x0b' || c == '\x0c'

/-- JavaScript String.prototype.trimStart on the ASCII fragment. -/
def jsTrimLeft (s : JStr) : JStr := s.dropWhile isJsSpace

/-- JavaScript String.prototype.trimEnd on the ASCII fragment. -/
def jsTrimRight (s : JStr) : JStr := (s.reverse.dropWhile isJsSpace).reverse

/-- JavaScript String.prototype.trim on the ASCII fragment. -/
def jsTrim (s : JStr) : JStr := jsTrimRight (jsTrimLeft s)

/-- A JavaScript number: the code only ever tests Number.isFinite and
passes the value through unchanged, so the carrier of finite values is
opaque (no arithmetic is modelled). -/
inductive JsNum where
  | finiteNum (v : Int)
  | nanNum
  | posInfNum
  | negInfNum
deriving DecidableEq

/-- Number.isFinite. -/
def JsNum.isFiniteNum : JsNum → Bool
  | .finiteNum _ => true
  | _ => false

/-- A JavaScript dynamic value, covering the shapes the repository's code
distinguishes: undefined, null, strings, numbers, and everything else
(booleans, objects, arrays, functions), which the code only ever rejects
with typeof tests. -/
inductive JVal where
  | vundef
  | vnull
  | vstr (s : JStr)
  | vnum (n : JsNum)
  | vother
deriving DecidableEq

/-- JavaScript truthiness of a string-or-null value (null and the empty
string are falsy). -/
def strTruthy : Option JStr → Bool
  | none => false
  | some s => !s.isEmpty

/-! ## Secret resolver (src/unnamed/part_004 and src/api/src/shared/openai.js) -/

/-- getEnvironmentApiKey: the OPENAI_API_KEY environment variable is either
a string or undefined; non-strings yield null, otherwise the trimmed value
when non-empty, else null.  Both resolver variants share this function
verbatim. -/
def getEnvironmentApiKey (env : Option JStr) : Option JStr :=
  match env with
  | none => none
  | some s =>
    let trimmed := jsTrim s
    if trimmed.length > 0 then some trimmed else none

/-- The shapes a JSON.parse of the storage file can take, as distinguished
by readStoredKeyRecord: a parse failure (JSON.parse throws), a parsed value
failing the truthy-object test, or an object with optional apiKey and
updatedAt properties (absence modelled as none, mirroring the in-operator
test). -/
inductive JsonDoc where
  | malformed
  | nonObject
  | objectDoc (apiKeyField : Option JVal) (updatedAtField : Option JVal)
deriving DecidableEq

/-- Outcome of fs.readFile on the storage file: the file is absent (the
error code is ENOENT), the read fails for another reason (an opaque error
identity), or the file is present with some contents. -/
inductive FsRead where
  | enoent
  | fsFailure (e : Nat)
  | found (doc : JsonDoc)
deriving DecidableEq

/-- Errors that can propagate out of the storage-reading functions. -/
inductive JsError where
  | fsError (e : Nat)
  | jsonSyntaxError
deriving DecidableEq

/-- The record returned by readStoredKeyRecord. -/
structure KeyRecord where
  apiKey : JStr
  updatedAt : Option JStr
deriving DecidableEq

/-- readStoredKeyRecord (src/unnamed/part_004 lines 21-50): reads and
parses the storage file; an ENOENT failure is caught and mapped to null;
any other read failure, and a JSON parse failure (whose error has no
ENOENT code), is rethrown.  A parsed non-object yields null; an object
yields null unless its apiKey property is a string that trims non-empty,
in which case the trimmed key and the (untrimmed) updatedAt string are
returned. -/
def readStoredKeyRecord (s : FsRead) : Except JsError (Option KeyRecord) :=
  match s with
  | .enoent => .ok none
  | .fsFailure e => .error (.fsError e)
  | .found .malformed => .error .jsonSyntaxError
  | .found .nonObject => .ok none
  | .found (.objectDoc apiKeyField updatedAtField) =>
    let apiKey : JStr :=
      match apiKeyField with
      | some (JVal.vstr raw) => jsTrim raw
      | _ => []
    if apiKey.isEmpty then .ok none
    else
      let updatedAt : Option JStr :=
        match updatedAtField with
        | some (JVal.vstr raw) => some raw
        | _ => none
      .ok (some { apiKey := apiKey, updatedAt := updatedAt })

/-- readStoredApiKey (src/unnamed/part_004 lines 52-55): the record's key,
or null when there is no record. -/
def readStoredApiKey (s : FsRead) : Except JsError (Option JStr) :=
  (readStoredKeyRecord s).map (fun r => r.map (fun rec => rec.apiKey))

/-- resolveApiKey (src/unnamed/part_004 lines 88-108): the environment key
wins when truthy; otherwise the stored key is consulted inside a
try/catch whose catch only logs, so a failing storage read falls through
to the final return null. -/
def resolveApiKey (env : Option JStr) (s : FsRead) : Except JsError (Option JStr) :=
  let environmentKey := getEnvironmentApiKey env
  if strTruthy environmentKey then .ok environmentKey
  else
    match readStoredApiKey s with
    | .ok stored => if strTruthy stored then .ok stored else .ok none
    | .error _ => .ok none

/-- resolveApiKey (src/api/src/shared/openai.js lines 10-18): this variant
returns the environment key (possibly null) after an optional warning and
never consults storage. -/
def sharedResolveApiKey (env : Option JStr) : Option JStr :=
  getEnvironmentApiKey env

/-- Modelled from the claim words of C1 (spec section 4.1): trimmed
environment value when non-empty; otherwise the persisted record's key
when present and non-empty after trimming; otherwise null. -/
def claimStoredKey : FsRead → Option JStr
  | .found (.objectDoc (some (JVal.vstr raw)) _) =>
    if jsTrim raw ≠ [] then some (jsTrim raw) else none
  | _ => none

/-- Modelled from the claim words of C1: the full precedence chain. -/
def claimResolveSpec (env : Option JStr) (s : FsRead) : Option JStr :=
  match env with
  | some e => if jsTrim e ≠ [] then some (jsTrim e) else claimStoredKey s
  | none => claimStoredKey s

/-- A stored record holding the key sk-abc, used as a concrete
configuration. -/
def c1Storage : FsRead := .found (.objectDoc (some (.vstr (jstrOf "sk-abc"))) none)

/-! ## Settings endpoint (src/api/src/functions/openai-settings.js) -/

/-- maskKey (openai-settings.js lines 22-34): null for non-strings and the
empty string; otherwise a key of at most 4 characters is fully replaced by
asterisks, and a longer key keeps its last 4 characters behind a run of
asterisks. -/
def maskKey (value : JVal) : Option JStr :=
  match value with
  | .vstr s =>
    if s.isEmpty then none
    else if s.length ≤ 4 then some (List.replicate s.length '*')
    else some (List.replicate (s.length - 4) '*' ++ s.drop (s.length - 4))
  | _ => none

/-- Modelled from the claim words of C6: masking replaces all but the last
4 characters with an asterisk (so a key of at most 4 characters would be
returned unchanged). -/
def claimMaskSpec (s : JStr) : JStr :=
  List.replicate (s.length - 4) '*' ++ s.drop (s.length - 4)

/-- readStoredKey (openai-settings.js lines 36-60): like the resolver's
record reader but with plain typeof tests; returns the trimmed key and the
untrimmed updatedAt, or null, rethrowing non-ENOENT failures. -/
def settingsReadStoredKey (s : FsRead) : Except JsError (Option KeyRecord) :=
  match s with
  | .enoent => .ok none
  | .fsFailure e => .error (.fsError e)
  | .found .malformed => .error .jsonSyntaxError
  | .found .nonObject => .ok none
  | .found (.objectDoc apiKeyField updatedAtField) =>
    let apiKey : Option JStr :=
      match apiKeyField with
      | some (JVal.vstr raw) => some raw
      | _ => none
    let updatedAt : Option JStr :=
      match updatedAtField with
      | some (JVal.vstr raw) => some raw
      | _ => none
    match apiKey with
    | none => .ok none
    | some raw =>
      if (jsTrim raw).isEmpty then .ok none
      else .ok (some { apiKey := jsTrim raw, updatedAt := updatedAt })

/-- The JSON body of a settings response, projected onto the fields the
endpoint ever sets. -/
structure SettingsResponse where
  status : Nat
  success : Option Bool
  configured : Option Bool
  preview : Option JStr
  updatedAt : Option JStr
  message : Option JStr
  errorMsg : Option JStr
deriving DecidableEq

/-- The 500 body produced by the handler's top-level catch
(openai-settings.js lines 187-192). -/
def settingsInternalErrorResponse : SettingsResponse :=
  { status := 500, success := none, configured := none, preview := none,
    updatedAt := none, message := none,
    errorMsg := some (jstrOf "Internal server error while processing OpenAI settings.") }

/-- The 400 body for a missing apiKey (openai-settings.js lines 158-162). -/
def settingsMissingKeyResponse : SettingsResponse :=
  { status := 400, success := none, configured := none, preview := none,
    updatedAt := none, message := none,
    errorMsg := some (jstrOf "Missing apiKey. Provide a non-empty OpenAI API key in the request body.") }

/-- GET handler of openai-settings.js (lines 137-152) together with the
top-level catch: a storage failure becomes the generic 500, no record
yields configured false, and a record yields configured true with the
masked preview. -/
def settingsGet (s : FsRead) : SettingsResponse :=
  match settingsReadStoredKey s with
  | .error _ => settingsInternalErrorResponse
  | .ok none =>
    { status := 200, success := none, configured := some false, preview := none,
      updatedAt := none,
      message := some (jstrOf "No OpenAI API key is currently stored."),
      errorMsg := none }
  | .ok (some r) =>
    { status := 200, success := none, configured := some true,
      preview := maskKey (.vstr r.apiKey), updatedAt := r.updatedAt,
      message := none, errorMsg := none }

/-- What JSON.parse can return for the settings body, as far as the POST
handler distinguishes it: null (whose property access throws), a scalar
(property access yields undefined), or an object/array with an optional
apiKey property. -/
inductive ParsedBody where
  | pnull
  | pscalar
  | pobj (apiKeyProp : Option JVal)
deriving DecidableEq

/-- The inbound settings request body: its raw text paired with how
JSON.parse treats it (blank bodies make request.json() throw). -/
inductive RawBody where
  | blankBody (text : JStr)
  | unparseable (text : JStr)
  | parsedBody (text : JStr) (v : ParsedBody)
deriving DecidableEq

/-- JavaScript String.prototype.includes: substring containment. -/
def jsIncludes (hay needle : JStr) : Bool := decide (needle <:+: hay)

/-- request.json(): resolves with the parsed value, rejects with a syntax
error on blank or unparseable text. -/
def jsonOf : RawBody → Except JsError ParsedBody
  | .parsedBody _ v => .ok v
  | _ => .error .jsonSyntaxError

/-- request.text(): the raw body text. -/
def textOf : RawBody → JStr
  | .blankBody t => t
  | .unparseable t => t
  | .parsedBody t _ => t

/-- An inbound request to the settings endpoint: the content-type header
(absent headers read as null) and the body. -/
structure SettingsRequest where
  contentType : Option JStr
  rawBody : RawBody
deriving DecidableEq

/-- parseRequestBody (openai-settings.js lines 85-112): with no
content-type, request.json() is attempted and a failure yields the empty
object; with a content-type containing application/json, request.json()
is returned unguarded; otherwise the text is read and a blank or
unparseable text yields the empty object. -/
def parseRequestBody (req : SettingsRequest) : Except JsError ParsedBody :=
  let contentType := req.contentType.getD []
  if contentType.isEmpty then
    match jsonOf req.rawBody with
    | .ok v => .ok v
    | .error _ => .ok (ParsedBody.pobj none)
  else if jsIncludes contentType (jstrOf "application/json") then
    jsonOf req.rawBody
  else
    let text := textOf req.rawBody
    if (jsTrim text).isEmpty then .ok (ParsedBody.pobj none)
    else
      match jsonOf req.rawBody with
      | .ok v => .ok v
      | .error _ => .ok (ParsedBody.pobj none)

/-- The apiKey extraction of the POST handler (openai-settings.js line
156): evaluating body.apiKey throws a TypeError when the parsed body is
null; otherwise a string property is trimmed and anything else yields the
empty string. -/
def apiKeyExtract : ParsedBody → Except JsError JStr
  | .pnull => .error .jsonSyntaxError
  | .pscalar => .ok []
  | .pobj p =>
    .ok (match p with
      | some (JVal.vstr raw) => jsTrim raw
      | _ => [])

/-- POST handler of openai-settings.js (lines 154-171) with the top-level
catch, as a transition on the storage state: a body-parse or property
access throw becomes the generic 500 leaving storage untouched; an empty
extracted key yields 400 leaving storage untouched; otherwise writeKey
(lines 62-70) overwrites the storage file with the trimmed key and the
current timestamp and the handler answers 200 with the masked preview. -/
def settingsPost (req : SettingsRequest) (storage : FsRead) (now : JStr) :
    SettingsResponse × FsRead :=
  match parseRequestBody req with
  | .error _ => (settingsInternalErrorResponse, storage)
  | .ok body =>
    match apiKeyExtract body with
    | .error _ => (settingsInternalErrorResponse, storage)
    | .ok apiKey =>
      if apiKey.isEmpty then (settingsMissingKeyResponse, storage)
      else
        ({ status := 200, success := some true, configured := some true,
           preview := maskKey (.vstr apiKey), updatedAt := some now,
           message := none, errorMsg := none },
         FsRead.found (.objectDoc (some (.vstr apiKey)) (some (.vstr now))))


/-! ## Upstream failure mapping (catch blocks of the four handlers) -/

/-- A thrown JavaScript value as the catch blocks see it: an Error object
carrying a message, or any other thrown value. -/
inductive JsThrown where
  | errObj (message : JStr)
  | nonErrorThrown
deriving DecidableEq

/-- A catch-block response: HTTP status and the error message placed in the
JSON body. -/
structure ErrorResponse where
  status : Nat
  message : JStr
deriving DecidableEq

/-- Catch block of the chat handler (src/api/functions/chat.js lines
105-113, identical in src/unnamed/part_005): a fixed 500 body. -/
def chatCatchResponse (e : JsThrown) : ErrorResponse :=
  { status := 500,
    message := jstrOf "Unable to contact the AI service right now. Please try again later." }

/-- Catch block of the transcription handler
(src/api/src/functions/transcribe.js lines 277-284): a fixed 500 body. -/
def fnTranscribeCatchResponse (e : JsThrown) : ErrorResponse :=
  { status := 500,
    message := jstrOf "Unable to contact the AI transcription service right now. Please try again later." }

/-- Catch block of the v4 transcription proxy
(src/api/src/functions/transcription-proxy.js lines 210-217): a fixed 500
body. -/
def proxyCatchResponse (e : JsThrown) : ErrorResponse :=
  { status := 500,
    message := jstrOf "Unable to contact the transcription service right now." }

/-- Catch block of the legacy transcription handler
(src/api/transcribe/index.js lines 96-110): the thrown Error's own message
is placed in the body, with a generic fallback only for non-Error
values. -/
def indexTranscribeCatchResponse (e : JsThrown) : ErrorResponse :=
  { status := 500,
    message :=
      match e with
      | .errObj m => m
      | .nonErrorThrown => jstrOf "An unexpected error occurred while transcribing the audio." }

/-! ## Transcription response shaping (src/api/src/functions/transcribe.js) -/

/-- An entry of the upstream segments array: a nullish entry (null or
undefined, on which a property access throws), a non-nullish entry that
is not an object (a number, string or boolean, whose property access
yields undefined), or an object together with the value of its text
property. -/
inductive SegItem where
  | nullishSeg
  | primitiveSeg
  | objSeg (textProp : JVal)
deriving DecidableEq

/-- The upstream segments field: either not an array, or an array of
entries. -/
inductive SegField where
  | notArray
  | arr (items : List SegItem)
deriving DecidableEq

/-- The upstream transcription success body, with the four fields the
handler reads; each holds an arbitrary dynamic value. -/
structure UpstreamBody where
  text : JVal
  segments : SegField
  duration : JVal
  language : JVal
deriving DecidableEq

/-- toSafeString (transcribe.js lines 145-152): trimmed string when
non-empty, else null. -/
def toSafeString (v : JVal) : Option JStr :=
  match v with
  | .vstr s => if (jsTrim s).isEmpty then none else some (jsTrim s)
  | _ => none

/-- toSafeNumber (transcribe.js lines 141-143): the number itself when
finite, else null. -/
def toSafeNumber (v : JVal) : Option JsNum :=
  match v with
  | .vnum n => if n.isFiniteNum then some n else none
  | _ => none

/-- Array.prototype.join with a separator. -/
def joinSep (sep : JStr) : List JStr → JStr
  | [] => []
  | x :: xs =>
    match xs with
    | [] => x
    | _ :: _ => x ++ sep ++ joinSep sep xs

/-- The per-segment mapper of readSegmentsText: non-objects map to the
empty string, objects map to their trimmed text property when it is a
string, else the empty string. -/
def segPiece : SegItem → JStr
  | .nullishSeg => []
  | .primitiveSeg => []
  | .objSeg t =>
    match t with
    | .vstr s => jsTrim s
    | _ => []

/-- The mapped, Boolean-filtered segment pieces of readSegmentsText. -/
def segPieces (items : List SegItem) : List JStr :=
  (items.map segPiece).filter (fun p => !p.isEmpty)

/-- readSegmentsText (transcribe.js lines 154-171): empty for a non-array;
otherwise the trimmed text properties, blanks removed, joined with single
spaces and finally trimmed. -/
def readSegmentsText (segs : SegField) : JStr :=
  match segs with
  | .notArray => []
  | .arr items => jsTrim (joinSep (jstrOf " ") (segPieces items))

/-- The JSON body of a successful transcription response. -/
structure TranscribeSuccessBody where
  text : JStr
  duration : Option JsNum
  language : Option JStr
deriving DecidableEq

/-- The success response shaping of the transcribe handler (transcribe.js
lines 270-276): text from toSafeString falling back through
readSegmentsText to the no-speech literal, duration through toSafeNumber,
language through toSafeString. -/
def shapeTranscription (d : UpstreamBody) : TranscribeSuccessBody :=
  let transcriptText : JStr :=
    match toSafeString d.text with
    | some s => s
    | none => readSegmentsText d.segments
  { text :=
      if transcriptText.isEmpty then jstrOf "No speech was detected in the clip."
      else transcriptText,
    duration := toSafeNumber d.duration,
    language := toSafeString d.language }

/-- The string content of a dynamic value (empty for non-strings), used by
the claim-level shapers. -/
def strOrEmpty : JVal → JStr
  | .vstr s => s
  | _ => []

/-- Modelled from the claim words of C4: the raw text property of a
segment entry. -/
def claimSegText : SegItem → JStr
  | .objSeg (JVal.vstr s) => s
  | _ => []

/-- Modelled from the claim words of C4: the segments' text values joined
with single spaces, with no trimming or filtering. -/
def claimSegJoin : SegField → JStr
  | .notArray => []
  | .arr items => joinSep (jstrOf " ") (items.map claimSegText)

/-- Modelled from the claim words of C4: text equal to the upstream text
when non-empty after trimming, else the joined segments, else the literal;
duration when a finite number else null; language when a non-empty string
else null. -/
def claimShapeSpec (d : UpstreamBody) : TranscribeSuccessBody :=
  { text :=
      if ¬(jsTrim (strOrEmpty d.text)).isEmpty then strOrEmpty d.text
      else if ¬(claimSegJoin d.segments).isEmpty then claimSegJoin d.segments
      else jstrOf "No speech was detected in the clip.",
    duration := toSafeNumber d.duration,
    language :=
      match d.language with
      | .vstr s => if ¬s.isEmpty then some s else none
      | _ => none }

/-- The amended segment fallback: the trimmed segment texts, blanks
removed, joined with single spaces (no outer trim). -/
def amendedSegJoin : SegField → JStr
  | .notArray => []
  | .arr items => joinSep (jstrOf " ") (segPieces items)

/-- The amended shape of C4: the trimmed upstream text when non-empty
after trimming, else the amended segment fallback when non-empty, else
the literal; duration when finite else null; the trimmed upstream
language when non-empty after trimming, else null. -/
def amendedShapeSpec (d : UpstreamBody) : TranscribeSuccessBody :=
  { text :=
      if ¬(jsTrim (strOrEmpty d.text)).isEmpty then jsTrim (strOrEmpty d.text)
      else if ¬(amendedSegJoin d.segments).isEmpty then amendedSegJoin d.segments
      else jstrOf "No speech was detected in the clip.",
    duration := toSafeNumber d.duration,
    language :=
      if ¬(jsTrim (strOrEmpty d.language)).isEmpty then some (jsTrim (strOrEmpty d.language))
      else none }

/-- Concrete upstream body with padded text and language, used as a
counterexample. -/
def c4Upstream : UpstreamBody :=
  { text := .vstr (jstrOf " hi "),
    segments := .notArray,
    duration := .vnum (.finiteNum 5),
    language := .vstr (jstrOf " pt ") }


/-! ## Proxy token extraction (transcription-proxy.js and _shared/utils.js) -/

/-- HTTP request method as dispatched on by the handlers. -/
inductive RequestMethod where
  | mGet
  | mPost
  | mOptions
  | mOther
deriving DecidableEq

/-- A character matched by the regex dot (anything except a line
terminator, in the ASCII fragment). -/
def dotOk (c : Char) : Bool := !(c == '\n' || c == '\r')

/-- The capture of the JavaScript regex matching a case-insensitive Bearer
prefix, one or more whitespace characters, and a non-empty remainder of
dot-matchable characters anchored at the end of the string; the greedy
whitespace run backtracks at most one character when the remainder is
otherwise empty. -/
def jsBearerCapture (s : JStr) : Option JStr :=
  if (s.take 6).map Char.toLower = jstrOf "bearer" then
    let r := s.drop 6
    let c := r.dropWhile isJsSpace
    if (r.takeWhile isJsSpace).isEmpty then none
    else if !c.isEmpty then
      if c.all dotOk then some c else none
    else if r.length ≥ 2 then
      match r.getLast? with
      | some lastc => if dotOk lastc then some [lastc] else none
      | none => none
    else none
  else none

/-- An inbound request to the v4 transcription proxy, projected onto the
header and url data readProvidedToken consults: the authorization header,
the two dedicated token headers, and the url (whose parse may fail, and
whose token query parameter may be absent). -/
structure ProxyRequest where
  authorizationHeader : Option JStr
  openaiProxyTokenHeader : Option JStr
  proxyTokenHeader : Option JStr
  urlParse : Option (Option JStr)
deriving DecidableEq

/-- The query-parameter fallback of readProvidedToken
(transcription-proxy.js lines 54-64): the trimmed token parameter when the
url parses and the parameter trims non-empty; a url parse failure is
swallowed. -/
def readProvidedTokenQuery (req : ProxyRequest) : Option JStr :=
  match req.urlParse with
  | none => none
  | some q =>
    match q with
    | some tok => if !(jsTrim tok).isEmpty then some (jsTrim tok) else none
    | none => none

/-- The dedicated-header step of readProvidedToken (transcription-proxy.js
lines 47-52): x-openai-proxy-token short-circuited over x-proxy-token,
returned trimmed when it trims non-empty, else the query fallback. -/
def readProvidedTokenRest (req : ProxyRequest) : Option JStr :=
  let headerToken : Option JStr :=
    match req.openaiProxyTokenHeader with
    | some h => if !h.isEmpty then some h else req.proxyTokenHeader
    | none => req.proxyTokenHeader
  match headerToken with
  | some h => if !(jsTrim h).isEmpty then some (jsTrim h) else readProvidedTokenQuery req
  | none => readProvidedTokenQuery req

/-- readProvidedToken (transcription-proxy.js lines 37-65): a truthy
bearer capture from the authorization header wins (trimmed), else the
dedicated headers, else the query parameter, else null. -/
def readProvidedToken (req : ProxyRequest) : Option JStr :=
  match req.authorizationHeader with
  | some ah =>
    if !ah.isEmpty then
      match jsBearerCapture ah with
      | some cap =>
        if !cap.isEmpty then some (jsTrim cap) else readProvidedTokenRest req
      | none => readProvidedTokenRest req
    else readProvidedTokenRest req
  | none => readProvidedTokenRest req

/-- A classic-model request as _shared/utils.js sees it: whether a headers
object is present at all, and the header values the helpers read.  The
authorization header and url token are carried to express which sources
getProvidedToken ignores. -/
structure ClassicRequest where
  hasHeaders : Bool
  authorizationHeader : Option JStr
  apiKeyHeader : Option JStr
  functionsKeyHeader : Option JStr
  urlToken : Option JStr
deriving DecidableEq

/-- getProvidedToken (src/api/src/_shared/utils.js lines 13-17): undefined
without a headers object, else the x-api-key header short-circuited over
the x-functions-key header.  Neither the authorization header nor the url
is consulted. -/
def getProvidedToken (req : ClassicRequest) : Option JStr :=
  if !req.hasHeaders then none
  else
    match req.apiKeyHeader with
    | some h => if !h.isEmpty then some h else req.functionsKeyHeader
    | none => req.functionsKeyHeader

/-- Modelled from the amended claim words of C7: the token sources in
priority order - the trimmed bearer capture (even when blank), then the
first non-empty dedicated header trimmed when non-blank, then the trimmed
query parameter when non-blank. -/
def claimTokenPriority (req : ProxyRequest) : Option JStr :=
  let bearer : Option JStr :=
    match req.authorizationHeader with
    | some ah => if ah.isEmpty then none else jsBearerCapture ah
    | none => none
  match bearer with
  | some cap => if cap.isEmpty then dedicatedThenQuery req else some (jsTrim cap)
  | none => dedicatedThenQuery req
where
  dedicatedThenQuery (req : ProxyRequest) : Option JStr :=
    let dedicated : Option JStr :=
      match req.openaiProxyTokenHeader with
      | some h => if h.isEmpty then req.proxyTokenHeader else some h
      | none => req.proxyTokenHeader
    match dedicated with
    | some h =>
      if (jsTrim h).isEmpty then readProvidedTokenQuery req else some (jsTrim h)
    | none => readProvidedTokenQuery req

/-- A concrete v4 request carrying only a bearer authorization header. -/
def c7BearerOnlyRequest : ProxyRequest :=
  { authorizationHeader := some (jstrOf "Bearer tok"),
    openaiProxyTokenHeader := none,
    proxyTokenHeader := none,
    urlParse := some none }

/-- The same request as the classic helper sees it. -/
def c7BearerOnlyClassic : ClassicRequest :=
  { hasHeaders := true,
    authorizationHeader := some (jstrOf "Bearer tok"),
    apiKeyHeader := none,
    functionsKeyHeader := none,
    urlToken := none }

/-! ## Proxy token guard (transcription-proxy.js handler and part_007) -/

/-- The module-level PROXY_TOKEN computation (transcription-proxy.js lines
14-19): the first of the two environment variables that is a string,
trimmed, else the empty string. -/
def proxyTokenConfig (env1 env2 : Option JStr) : JStr :=
  match env1 with
  | some s => jsTrim s
  | none =>
    match env2 with
    | some s => jsTrim s
    | none => []

/-- The token test of both guards: true exactly when the provided token is
absent, empty, or differs from the configured token. -/
def jsBadToken (provided : Option JStr) (configured : JStr) : Bool :=
  match provided with
  | none => true
  | some tok => tok.isEmpty || !(tok == configured)

/-- The pre-upstream outcome of a proxy handler: the CORS preflight, an
early JSON response with a status and message, or passing all guards and
proceeding to body handling and the upstream call. -/
inductive ProxyEarly where
  | preflight204
  | resp (status : Nat) (message : JStr)
  | proceed
deriving DecidableEq

/-- The guard phase of the v4 transcription-proxy handler
(transcription-proxy.js lines 99-127): OPTIONS answers 204; a blank
configured token answers 503; a bad provided token answers 401; otherwise
the handler proceeds (to the readiness check or the POST body path). -/
def transcriptionProxyEarly (configured : JStr) (provided : Option JStr)
    (m : RequestMethod) : ProxyEarly :=
  if m = RequestMethod.mOptions then .preflight204
  else if configured.isEmpty then
    .resp 503 (jstrOf "Server misconfiguration: missing transcription proxy token.")
  else if jsBadToken provided configured then
    .resp 401 (jstrOf "Unauthorized request.")
  else .proceed

/-- The guard phase of the classic transcription proxy (src/unnamed/
part_007 lines 12-103): on GET the missing-API-key and missing-token
checks answer 503 before the token comparison; on POST the same checks
answer 500 first; other methods answer 405; only then does a bad token
answer 401. -/
def classicProxyEarly (apiKeyEnv proxyTokenEnv provided : Option JStr)
    (m : RequestMethod) : ProxyEarly :=
  let configured := proxyTokenEnv.getD []
  if m = RequestMethod.mGet then
    if !strTruthy apiKeyEnv then
      .resp 503 (jstrOf "The OpenAI API key is not configured on the server.")
    else if !strTruthy proxyTokenEnv then
      .resp 503 (jstrOf "Server misconfiguration: missing OpenAI proxy token.")
    else if jsBadToken provided configured then
      .resp 401 (jstrOf "Unauthorized request.")
    else .resp 200 (jstrOf "Transcription proxy is ready.")
  else if m ≠ RequestMethod.mPost then
    .resp 405 (jstrOf "Method not allowed.")
  else if !strTruthy apiKeyEnv then
    .resp 500 (jstrOf "The OpenAI API key is not configured on the server.")
  else if !strTruthy proxyTokenEnv then
    .resp 500 (jstrOf "Server misconfiguration: missing OpenAI proxy token.")
  else if jsBadToken provided configured then
    .resp 401 (jstrOf "Unauthorized request.")
  else .proceed


/-! ## Upload file metadata inference (functions/transcribe.js and part_003) -/

/-- JavaScript String.prototype.toLowerCase on the ASCII fragment. -/
def jsLower (s : JStr) : JStr := s.map Char.toLower

/-- The extension-to-MIME table of src/api/src/functions/transcribe.js
(lines 29-47), in insertion order; note .opus maps to audio/opus here. -/
def extensionMimePairsA : List (JStr × JStr) :=
  [(jstrOf ".aac", jstrOf "audio/aac"),
   (jstrOf ".aif", jstrOf "audio/aiff"),
   (jstrOf ".aiff", jstrOf "audio/aiff"),
   (jstrOf ".amr", jstrOf "audio/amr"),
   (jstrOf ".caf", jstrOf "audio/x-caf"),
   (jstrOf ".flac", jstrOf "audio/flac"),
   (jstrOf ".m4a", jstrOf "audio/mp4"),
   (jstrOf ".mp3", jstrOf "audio/mpeg"),
   (jstrOf ".mp4", jstrOf "audio/mp4"),
   (jstrOf ".oga", jstrOf "audio/ogg"),
   (jstrOf ".ogg", jstrOf "audio/ogg"),
   (jstrOf ".opus", jstrOf "audio/opus"),
   (jstrOf ".wav", jstrOf "audio/wav"),
   (jstrOf ".webm", jstrOf "audio/webm"),
   (jstrOf ".3gp", jstrOf "audio/3gpp")]

/-- One step of a stable insertion sort by descending key length: the new
entry is placed after every existing entry of greater or equal key
length. -/
def insertByKeyLenDesc (e : JStr × JStr) : List (JStr × JStr) → List (JStr × JStr)
  | [] => [e]
  | x :: xs => if x.1.length < e.1.length then e :: x :: xs else x :: insertByKeyLenDesc e xs

/-- Stable sort by descending key length (the order the JavaScript stable
sort with comparator right-length minus left-length produces). -/
def stableSortByKeyLenDesc (l : List (JStr × JStr)) : List (JStr × JStr) :=
  l.foldl (fun acc e => insertByKeyLenDesc e acc) []

/-- sortedExtensionMimePairs (transcribe.js lines 49-51): the stable sort
of the table by descending key length. -/
def sortedExtensionMimePairsA : List (JStr × JStr) :=
  stableSortByKeyLenDesc extensionMimePairsA

/-- The extension-to-MIME table of src/unnamed/part_003 (lines 14-33), in
insertion order; note .opus maps to audio/ogg here and .waptt is an extra
entry. -/
def extensionMimePairsB : List (JStr × JStr) :=
  [(jstrOf ".aac", jstrOf "audio/aac"),
   (jstrOf ".aif", jstrOf "audio/aiff"),
   (jstrOf ".aiff", jstrOf "audio/aiff"),
   (jstrOf ".amr", jstrOf "audio/amr"),
   (jstrOf ".caf", jstrOf "audio/x-caf"),
   (jstrOf ".flac", jstrOf "audio/flac"),
   (jstrOf ".m4a", jstrOf "audio/mp4"),
   (jstrOf ".mp3", jstrOf "audio/mpeg"),
   (jstrOf ".mp4", jstrOf "audio/mp4"),
   (jstrOf ".oga", jstrOf "audio/ogg"),
   (jstrOf ".ogg", jstrOf "audio/ogg"),
   (jstrOf ".opus", jstrOf "audio/ogg"),
   (jstrOf ".wav", jstrOf "audio/wav"),
   (jstrOf ".webm", jstrOf "audio/webm"),
   (jstrOf ".3gp", jstrOf "audio/3gpp"),
   (jstrOf ".waptt", jstrOf "audio/ogg")]

/-- The longest-match ordering of part_003's table, used only by the
specification-side lookup (the code itself searches in insertion
order). -/
def sortedExtensionMimePairsB : List (JStr × JStr) :=
  stableSortByKeyLenDesc extensionMimePairsB

/-- The MIME-to-extension fallback map shared verbatim by both variants
(transcribe.js lines 53-66, part_003 lines 35-48). -/
def mimeFallbackPairs : List (JStr × JStr) :=
  [(jstrOf "audio/3gpp", jstrOf ".3gp"),
   (jstrOf "audio/aac", jstrOf ".aac"),
   (jstrOf "audio/aiff", jstrOf ".aiff"),
   (jstrOf "audio/amr", jstrOf ".amr"),
   (jstrOf "audio/flac", jstrOf ".flac"),
   (jstrOf "audio/mpeg", jstrOf ".mp3"),
   (jstrOf "audio/mp4", jstrOf ".m4a"),
   (jstrOf "audio/ogg", jstrOf ".ogg"),
   (jstrOf "audio/opus", jstrOf ".opus"),
   (jstrOf "audio/wav", jstrOf ".wav"),
   (jstrOf "audio/webm", jstrOf ".webm"),
   (jstrOf "audio/x-caf", jstrOf ".caf")]

/-- Property lookup in the fallback map. -/
def mimeFallbackLookup (m : JStr) : Option JStr :=
  (mimeFallbackPairs.find? (fun e => e.1 == m)).map (fun e => e.2)

/-- An uploaded file as the metadata inference sees it: the type, name and
filename properties (each an arbitrary dynamic value). -/
structure UploadFile where
  ftype : JVal
  fname : JVal
  ffilename : JVal
deriving DecidableEq

/-- The provided-name computation of variant A (transcribe.js lines
73-79): the name when a non-empty string, else the filename when a
non-empty string, else empty. -/
def providedNameA (f : UploadFile) : JStr :=
  match f.fname with
  | .vstr s =>
    if !s.isEmpty then s
    else
      match f.ffilename with
      | .vstr t => if !t.isEmpty then t else []
      | _ => []
  | _ =>
    match f.ffilename with
    | .vstr t => if !t.isEmpty then t else []
    | _ => []

/-- The provided-name computation of variant B (part_003 line 52): the
name when a string (even empty), else empty. -/
def providedNameB (f : UploadFile) : JStr :=
  match f.fname with
  | .vstr s => s
  | _ => []

/-- determineFileMetadata of src/api/src/functions/transcribe.js (lines
68-95): a non-empty declared type other than the octet-stream placeholder
wins; otherwise the longest extension suffix match on the lowercased
name; otherwise audio/webm; the file name is kept when non-blank, else
built from the matched or fallback extension. -/
def determineFileMetadataA (f : UploadFile) : JStr × JStr :=
  let providedType : Option JStr :=
    match f.ftype with
    | .vstr s =>
      if !s.isEmpty && !(s == jstrOf "application/octet-stream") then some s else none
    | _ => none
  let providedName := providedNameA f
  let normalizedName := jsLower providedName
  let matchedEntry :=
    sortedExtensionMimePairsA.find? (fun e => e.1.isSuffixOf normalizedName)
  let mimeType : JStr :=
    match providedType with
    | some t => t
    | none =>
      match matchedEntry with
      | some e => e.2
      | none => jstrOf "audio/webm"
  let fallbackExtension : JStr :=
    match matchedEntry with
    | some e => e.1
    | none => (mimeFallbackLookup mimeType).getD (jstrOf ".webm")
  let safeName : JStr :=
    if !providedName.isEmpty && !(jsTrim providedName).isEmpty then providedName
    else jstrOf "audio-upload" ++ fallbackExtension
  (mimeType, safeName)

/-- determineFileMetadata of src/unnamed/part_003 (lines 50-65): any
non-empty declared type wins (the octet-stream placeholder included);
otherwise the first extension suffix match in table insertion order on
the lowercased name; otherwise audio/webm. -/
def determineFileMetadataB (f : UploadFile) : JStr × JStr :=
  let providedType : Option JStr :=
    match f.ftype with
    | .vstr s => if !s.isEmpty then some s else none
    | _ => none
  let providedName := providedNameB f
  let normalizedName := jsLower providedName
  let matchedEntry :=
    extensionMimePairsB.find? (fun e => e.1.isSuffixOf normalizedName)
  let mimeType : JStr :=
    match providedType with
    | some t => t
    | none =>
      match matchedEntry with
      | some e => e.2
      | none => jstrOf "audio/webm"
  let fallbackExtension : JStr :=
    match matchedEntry with
    | some e => e.1
    | none => (mimeFallbackLookup mimeType).getD (jstrOf ".webm")
  let safeName : JStr :=
    if !providedName.isEmpty && !(jsTrim providedName).isEmpty then providedName
    else jstrOf "audio-upload" ++ fallbackExtension
  (mimeType, safeName)

/-- The longest-match extension lookup over variant A's table, written
from the claim words of C5. -/
def claimExtMimeA (f : UploadFile) : JStr :=
  match sortedExtensionMimePairsA.find?
      (fun e => e.1.isSuffixOf (jsLower (providedNameA f))) with
  | some e => e.2
  | none => jstrOf "audio/webm"

/-- Modelled from the claim words of C5, over variant A's table: declared
MIME type when present and not the generic placeholder, else the
longest-match extension lookup, else the default. -/
def claimMimeTypeA (f : UploadFile) : JStr :=
  match f.ftype with
  | .vstr s =>
    if !s.isEmpty && !(s == jstrOf "application/octet-stream") then s
    else claimExtMimeA f
  | _ => claimExtMimeA f

/-- The longest-match extension lookup over variant B's table, written
from the claim words of C5. -/
def claimExtMimeB (f : UploadFile) : JStr :=
  match sortedExtensionMimePairsB.find?
      (fun e => e.1.isSuffixOf (jsLower (providedNameB f))) with
  | some e => e.2
  | none => jstrOf "audio/webm"

/-- Modelled from the claim words of C5, over variant B's table: declared
MIME type when present and not the generic placeholder, else the
longest-match extension lookup, else the default. -/
def claimMimeTypeB (f : UploadFile) : JStr :=
  match f.ftype with
  | .vstr s =>
    if !s.isEmpty && !(s == jstrOf "application/octet-stream") then s
    else claimExtMimeB f
  | _ => claimExtMimeB f

/-- The amended inference for variant B: any non-empty declared type wins
(the placeholder included), else the extension lookup, else the
default. -/
def amendedMimeTypeB (f : UploadFile) : JStr :=
  match f.ftype with
  | .vstr s => if !s.isEmpty then s else claimExtMimeB f
  | _ => claimExtMimeB f

/-- An upload declaring the generic placeholder type with an mp3 name. -/
def c5PlaceholderUpload : UploadFile :=
  { ftype := .vstr (jstrOf "application/octet-stream"),
    fname := .vstr (jstrOf "clip.mp3"),
    ffilename := .vundef }

/-- An upload named clip.opus with no declared MIME type. -/
def c5ClipOpusUpload : UploadFile :=
  { ftype := .vundef,
    fname := .vstr (jstrOf "clip.opus"),
    ffilename := .vundef }


/-- Concrete malformed-JSON settings request used as a counterexample. -/
def c8BadRequest : SettingsRequest :=
  { contentType := some (jstrOf "application/json"),
    rawBody := .unparseable (jstrOf "not json") }

/-- Concrete JSON-null settings request used as a counterexample. -/
def c10NullBodyRequest : SettingsRequest :=
  { contentType := some (jstrOf "application/json"),
    rawBody := .parsedBody (jstrOf "null") ParsedBody.pnull }

/-! ## Legacy transcription response shaping (src/api/transcribe/index.js) -/

/-- Outcomes on which the legacy shaping cannot produce a body: a
property access on a nullish segment entry throws a TypeError, and the
stringification Array.prototype.join would apply to a number, boolean or
object lies outside the ASCII string model (it is reported as such, not
guessed). -/
inductive IndexShapeErr where
  | segTextOnNullish
  | outsideStringModel
deriving DecidableEq

/-- The success body of transcribe/index.js (lines 82-86): every field is
passed through as a dynamic value - no trimming, finiteness check, or
no-speech substitution happens in this variant. -/
structure IndexShapedBody where
  text : JVal
  duration : JVal
  language : JVal
deriving DecidableEq

/-- JavaScript nullish coalescing: the value itself unless it is null or
undefined, in which case the fallback. -/
def jsNullishOr (v fallback : JVal) : JVal :=
  match v with
  | .vundef => fallback
  | .vnull => fallback
  | _ => v

/-- The map phase of the legacy fallback (transcribe/index.js line 79):
reading the text property of each segment entry; a nullish entry
throws. -/
def indexSegTextProp : SegItem → Except IndexShapeErr JVal
  | .nullishSeg => .error .segTextOnNullish
  | .primitiveSeg => .ok .vundef
  | .objSeg t => .ok t

/-- The element conversion of Array.prototype.join: strings join as
themselves, null and undefined join as the empty string; joining any
other value needs a stringification outside the ASCII model. -/
def jsJoinString : JVal → Except IndexShapeErr JStr
  | .vstr s => .ok s
  | .vundef => .ok []
  | .vnull => .ok []
  | _ => .error .outsideStringModel

/-- fallbackText of transcribe/index.js (lines 78-80): the raw text
properties of the segments joined with single spaces when segments is an
array (no trimming, no filtering of blanks), else the empty string. -/
def indexFallbackText : SegField → Except IndexShapeErr JStr
  | .notArray => .ok []
  | .arr items => do
    let texts ← items.mapM indexSegTextProp
    let pieces ← texts.mapM jsJoinString
    return joinSep (jstrOf " ") pieces

/-- The success-body construction of transcribe/index.js (lines 78-86):
fallbackText is computed first (so a throwing segment entry aborts even
when the upstream text is present); then text is the upstream text
whenever non-nullish (the empty string included, with no no-speech
literal), else the raw join, and duration and language pass through with
nullish coalescing, keeping non-finite numbers and non-string values. -/
def indexShapeTranscription (d : UpstreamBody) : Except IndexShapeErr IndexShapedBody :=
  match indexFallbackText d.segments with
  | .error e => .error e
  | .ok fallbackText =>
    .ok { text :=
            match d.text with
            | .vundef => .vstr fallbackText
            | .vnull => .vstr fallbackText
            | t => t,
          duration :=
            match d.duration with
            | .vundef => .vnull
            | .vnull => .vnull
            | v => v,
          language :=
            match d.language with
            | .vundef => .vnull
            | .vnull => .vnull
            | v => v }

/-- Concrete upstream body with an empty text, a non-empty segment, a NaN
duration and a null language, on which the legacy variant and the claimed
shape diverge. -/
def c4IndexUpstream : UpstreamBody :=
  { text := .vstr [],
    segments := .arr [.objSeg (.vstr (jstrOf "hello"))],
    duration := .vnum .nanNum,
    language := .vnull }


/-- Helper: the storage-backed resolver agrees everywhere with the claimed
precedence chain. -/
theorem resolveApiKey_storage_branch (s : FsRead) :
    (match readStoredApiKey s with
      | .ok stored => if strTruthy stored then Except.ok stored else Except.ok none
      | .error _ => Except.ok none : Except JsError (Option JStr)) =
      Except.ok (claimStoredKey s) := by
  cases s with
  | enoent => rfl
  | fsFailure e => rfl
  | found doc =>
    cases doc with
    | malformed => rfl
    | nonObject => rfl
    | objectDoc k u =>
      cases k with
      | none => rfl
      | some v =>
        cases v with
        | vstr raw =>
          simp only [readStoredApiKey, readStoredKeyRecord, claimStoredKey]
          by_cases h : jsTrim raw = []
          · simp [h, Except.map, strTruthy]
          · simp [h, Except.map, strTruthy, List.isEmpty_iff]
        | vundef => rfl
        | vnull => rfl
        | vnum n => rfl
        | vother => rfl

/-- Helper: the storage-backed resolver agrees everywhere with the claimed
precedence chain. -/
theorem resolveApiKey_eq_claimSpec :
    ∀ env s, resolveApiKey env s = Except.ok (claimResolveSpec env s) := by
  intro env s
  cases env with
  | none =>
    simp only [resolveApiKey, getEnvironmentApiKey, strTruthy, claimResolveSpec]
    exact resolveApiKey_storage_branch s
  | some e =>
    simp only [resolveApiKey, getEnvironmentApiKey, claimResolveSpec]
    by_cases h : jsTrim e = []
    · simp only [h, List.length_nil, lt_irrefl, if_false, ne_eq, not_true_eq_false,
        if_neg, strTruthy, Bool.false_eq_true]
      simpa using resolveApiKey_storage_branch s
    · have hlen : (jsTrim e).length > 0 := List.length_pos.mpr h
      simp [hlen, h, strTruthy, List.isEmpty_iff]

/-- C1, counterexample: with no environment key and a stored record whose
key is sk-abc, the claimed resolver contract yields sk-abc, but the
resolveApiKey variant of src/api/src/shared/openai.js yields null because
it never consults storage. -/
theorem c1_shared_resolver_skips_storage :
    claimResolveSpec none c1Storage = some (jstrOf "sk-abc") ∧
    sharedResolveApiKey none = none := by
  constructor <;> rfl

/-- C1 (amended): the storage-backed resolver of src/unnamed/part_004
realises exactly the claimed precedence (trimmed environment value when
non-empty, else the stored record's key when present and non-empty after
trimming, else null) and never rejects, while the env-only variant of
src/api/src/shared/openai.js behaves as that contract would with the
storage file permanently absent. -/
theorem c1_resolver_precedence :
    (∀ env s, resolveApiKey env s = Except.ok (claimResolveSpec env s)) ∧
    (∀ env, sharedResolveApiKey env = claimResolveSpec env FsRead.enoent) := by
  refine ⟨resolveApiKey_eq_claimSpec, ?_⟩
  intro env
  cases env with
  | none => rfl
  | some e =>
    simp only [sharedResolveApiKey, getEnvironmentApiKey, claimResolveSpec, claimStoredKey]
    by_cases h : jsTrim e = []
    · simp [h]
    · have hlen : (jsTrim e).length > 0 := List.length_pos.mpr h
      simp [hlen, h]

/-- C9, counterexample: a storage read failing with a non-ENOENT error
(opaque identity 13) makes readStoredApiKey reject, yet resolveApiKey
returns a successful null instead of propagating the error to its
caller. -/
theorem c9_resolve_swallows_error :
    readStoredApiKey (FsRead.fsFailure 13) = Except.error (JsError.fsError 13) ∧
    resolveApiKey none (FsRead.fsFailure 13) = Except.ok none := by
  constructor <;> rfl

/-- C9 (amended): a non-ENOENT storage failure propagates to the caller of
readStoredKeyRecord and readStoredApiKey; an absent file yields null
without error; resolveApiKey itself catches every storage error and never
rejects, returning null in place of the propagated failure. -/
theorem c9_storage_error_propagation :
    (∀ e, readStoredKeyRecord (FsRead.fsFailure e) = Except.error (JsError.fsError e)) ∧
    (∀ e, readStoredApiKey (FsRead.fsFailure e) = Except.error (JsError.fsError e)) ∧
    readStoredKeyRecord FsRead.enoent = Except.ok none ∧
    (∀ env s, ∃ r, resolveApiKey env s = Except.ok r) := by
  refine ⟨fun e => rfl, fun e => rfl, rfl, ?_⟩
  intro env s
  exact ⟨claimResolveSpec env s, resolveApiKey_eq_claimSpec env s⟩

/-- C6, counterexample: a stored key abc (3 characters) is fully masked by
the code although the claimed rule (replace all but the last 4 characters)
would return it unchanged; and for a stored key of four asterisks the GET
response's preview field is exactly the raw stored key string. -/
theorem c6_mask_short_key_counterexample :
    maskKey (JVal.vstr (jstrOf "abc")) = some (jstrOf "***") ∧
    claimMaskSpec (jstrOf "abc") = jstrOf "abc" ∧
    (settingsGet (FsRead.found (.objectDoc (some (.vstr (jstrOf "****"))) none))).preview =
      some (jstrOf "****") := by
  refine ⟨rfl, rfl, rfl⟩

/-- C6 (amended): the GET preview masks a stored key by replacing all but
the last 4 characters with an asterisk, fully masking keys of at most 4
characters; the preview coincides with the raw key exactly when every
masked position already holds an asterisk, so a key with any other
character in a masked position is never echoed back. -/
theorem c6_preview_masks_all_but_last_four :
    ∀ k : JStr, k ≠ [] →
      (maskKey (JVal.vstr k) =
        some (if k.length ≤ 4 then List.replicate k.length '*' else claimMaskSpec k)) ∧
      (maskKey (JVal.vstr k) = some k ↔
        k.take (if k.length ≤ 4 then k.length else k.length - 4) =
          List.replicate (if k.length ≤ 4 then k.length else k.length - 4) '*') ∧
      (∀ s r, settingsReadStoredKey s = Except.ok (some r) →
        (settingsGet s).status = 200 ∧ (settingsGet s).configured = some true ∧
        (settingsGet s).preview = maskKey (JVal.vstr r.apiKey)) := by
  intro k hk
  have hne : ¬ k.isEmpty := by simpa [List.isEmpty_iff] using hk
  refine ⟨?_, ?_, ?_⟩
  · by_cases h4 : k.length ≤ 4 <;> simp [maskKey, claimMaskSpec, hne, h4]
  · by_cases h4 : k.length ≤ 4
    · simp only [maskKey, hne, Bool.false_eq_true, if_false, h4, if_true,
        Option.some.injEq, List.take_length]
      exact eq_comm
    · simp only [maskKey, hne, Bool.false_eq_true, if_false, h4,
        Option.some.injEq]
      constructor
      · intro h
        have hsplit : k.take (k.length - 4) ++ k.drop (k.length - 4) = k :=
          List.take_append_drop _ k
        have h2 : List.replicate (k.length - 4) '*' ++ k.drop (k.length - 4) =
            k.take (k.length - 4) ++ k.drop (k.length - 4) := by
          rw [h, hsplit]
        have hlen : (List.replicate (k.length - 4) '*').length =
            (k.take (k.length - 4)).length := by
          simp [List.length_take]
        exact (List.append_inj h2 hlen).1.symm
      · intro h
        rw [← h]
        exact List.take_append_drop _ k
  · intro s r h
    simp [settingsGet, h]

/-- C6 witness. -/
theorem c6_preview_masking_witness :
    maskKey (JVal.vstr (jstrOf "sk-test")) =
      some (if (jstrOf "sk-test").length ≤ 4 then
              List.replicate (jstrOf "sk-test").length '*'
            else claimMaskSpec (jstrOf "sk-test")) :=
  (c6_preview_masks_all_but_last_four (jstrOf "sk-test") (by decide)).1

/-- C8, counterexample: with a content-type containing application/json and
an unparseable body, parseRequestBody raises instead of returning an empty
object, and the POST handler answers 500 via its top-level catch. -/
theorem c8_json_content_type_raises :
    parseRequestBody c8BadRequest = Except.error JsError.jsonSyntaxError ∧
    settingsPost c8BadRequest FsRead.enoent (jstrOf "2024-01-01T00:00:00.000Z") =
      (settingsInternalErrorResponse, FsRead.enoent) ∧
    settingsInternalErrorResponse.status = 500 := by
  refine ⟨rfl, rfl, rfl⟩

/-- C8 (amended): when the content-type header is absent or does not
contain application/json, the body parser returns the empty object for
every body request.json() would reject (missing, blank, or unparseable
alike) and more generally always returns a value; the parser raises
exactly when the content-type contains application/json and
request.json() rejects, in which case the POST handler answers the
generic 500 internal-error body without touching storage. -/
theorem c8_parse_leniency_boundary :
    (∀ req : SettingsRequest,
      jsIncludes (req.contentType.getD []) (jstrOf "application/json") = false →
      jsonOf req.rawBody = Except.error JsError.jsonSyntaxError →
      parseRequestBody req = Except.ok (ParsedBody.pobj none)) ∧
    (∀ req : SettingsRequest,
      jsIncludes (req.contentType.getD []) (jstrOf "application/json") = false →
      ∃ v, parseRequestBody req = Except.ok v) ∧
    (∀ req e, parseRequestBody req = Except.error e →
      jsIncludes (req.contentType.getD []) (jstrOf "application/json") = true ∧
      jsonOf req.rawBody = Except.error e) ∧
    (∀ req storage now e, parseRequestBody req = Except.error e →
      settingsPost req storage now = (settingsInternalErrorResponse, storage)) := by
  refine ⟨?_, ?_, ?_, ?_⟩
  · intro req h hj
    simp only [parseRequestBody]
    by_cases hempty : (req.contentType.getD []).isEmpty
    · simp [hempty, hj]
    · simp only [hempty, Bool.false_eq_true, if_false, h]
      by_cases hblank : (jsTrim (textOf req.rawBody)).isEmpty
      · simp [hblank]
      · simp [hblank, hj]
  · intro req h
    simp only [parseRequestBody]
    by_cases hempty : (req.contentType.getD []).isEmpty
    · simp only [hempty, if_true]
      cases hj : jsonOf req.rawBody with
      | ok v => exact ⟨v, rfl⟩
      | error e => exact ⟨ParsedBody.pobj none, rfl⟩
    · simp only [hempty, Bool.false_eq_true, if_false, h]
      by_cases hblank : (jsTrim (textOf req.rawBody)).isEmpty
      · simp only [hblank, if_true]
        exact ⟨ParsedBody.pobj none, rfl⟩
      · simp only [hblank, Bool.false_eq_true, if_false]
        cases hj : jsonOf req.rawBody with
        | ok v => exact ⟨v, rfl⟩
        | error e => exact ⟨ParsedBody.pobj none, rfl⟩
  · intro req e h
    by_cases hempty : (req.contentType.getD []).isEmpty
    · exfalso
      simp only [parseRequestBody, hempty, if_true] at h
      cases hj : jsonOf req.rawBody with
      | ok v => simp [hj] at h
      | error e₂ => simp [hj] at h
    · by_cases hjson : jsIncludes (req.contentType.getD []) (jstrOf "application/json") = true
      · refine ⟨hjson, ?_⟩
        simpa [parseRequestBody, hempty, hjson] using h
      · exfalso
        simp only [Bool.not_eq_true] at hjson
        simp only [parseRequestBody, hempty, Bool.false_eq_true, if_false, hjson] at h
        by_cases hblank : (jsTrim (textOf req.rawBody)).isEmpty
        · simp [hblank] at h
        · simp only [hblank, Bool.false_eq_true, if_false] at h
          cases hj : jsonOf req.rawBody with
          | ok v => simp [hj] at h
          | error e₂ => simp [hj] at h
  · intro req storage now e h
    simp [settingsPost, h]

/-- C8 witness. -/
theorem c8_parse_leniency_witness :
    parseRequestBody { contentType := some (jstrOf "text/plain"),
                       rawBody := RawBody.unparseable (jstrOf "not json") } =
      Except.ok (ParsedBody.pobj none) :=
  c8_parse_leniency_boundary.1
    { contentType := some (jstrOf "text/plain"),
      rawBody := RawBody.unparseable (jstrOf "not json") } (by decide) rfl

/-- C10, counterexample: a POST whose parsed body is JSON null lacks a
usable apiKey, yet the handler answers 500 (the property access on null
throws into the top-level catch), not the claimed 400; storage is still
untouched. -/
theorem c10_null_body_not_400 :
    settingsPost c10NullBodyRequest FsRead.enoent (jstrOf "now") =
      (settingsInternalErrorResponse, FsRead.enoent) ∧
    settingsInternalErrorResponse.status = 500 := by
  refine ⟨rfl, rfl⟩

/-- C10 (amended): a parsed body whose extracted apiKey is empty gets the
400 missing-key response with storage untouched; the JSON-null body gets
the generic 500 with storage untouched; and storage is only ever modified
on the 200 success path. -/
theorem c10_post_validation_guard :
    settingsMissingKeyResponse.status = 400 ∧
    (∀ req storage now body, parseRequestBody req = Except.ok body →
      apiKeyExtract body = Except.ok [] →
      settingsPost req storage now = (settingsMissingKeyResponse, storage)) ∧
    (∀ req storage now, parseRequestBody req = Except.ok ParsedBody.pnull →
      settingsPost req storage now = (settingsInternalErrorResponse, storage)) ∧
    (∀ req storage now, (settingsPost req storage now).1.status ≠ 200 →
      (settingsPost req storage now).2 = storage) := by
  refine ⟨rfl, ?_, ?_, ?_⟩
  · intro req storage now body h1 h2
    simp [settingsPost, h1, h2]
  · intro req storage now h
    simp [settingsPost, h, apiKeyExtract]
  · intro req storage now h
    cases hp : parseRequestBody req with
    | error e => simp [settingsPost, hp]
    | ok body =>
      cases he : apiKeyExtract body with
      | error e => simp [settingsPost, hp, he]
      | ok apiKey =>
        by_cases hemp : apiKey.isEmpty
        · simp [settingsPost, hp, he, hemp]
        · exfalso
          apply h
          simp [settingsPost, hp, he, hemp]

/-- C10 witness. -/
theorem c10_post_validation_witness :
    settingsPost { contentType := none, rawBody := RawBody.blankBody [] }
        FsRead.enoent (jstrOf "now") =
      (settingsMissingKeyResponse, FsRead.enoent) :=
  c10_post_validation_guard.2.1
    { contentType := none, rawBody := RawBody.blankBody [] }
    FsRead.enoent (jstrOf "now") (ParsedBody.pobj none) rfl rfl

theorem dropWhile_head_false {α : Type} {p : α → Bool} :
    ∀ {l : List α} {a : α} {t : List α}, l.dropWhile p = a :: t → p a = false := by
  intro l
  induction l with
  | nil => intro a t h; simp [List.dropWhile] at h
  | cons x xs ih =>
    intro a t h
    rw [List.dropWhile_cons] at h
    by_cases hx : p x
    · exact ih (by simpa [hx] using h)
    · obtain ⟨rfl, rfl⟩ : x = a ∧ xs = t := by simpa [hx] using h
      simpa using hx

theorem dropWhile_isSuffix {α : Type} (p : α → Bool) :
    ∀ (l : List α), l.dropWhile p <:+ l := by
  intro l
  induction l with
  | nil => exact List.suffix_refl _
  | cons x xs ih =>
    rw [List.dropWhile_cons]
    by_cases hx : p x
    · simp only [hx, if_true]
      exact ih.trans (List.suffix_cons x xs)
    · simp only [hx, Bool.false_eq_true, if_false]
      exact List.suffix_refl _

theorem jsTrim_head_not_space {s : JStr} {a : Char} {t : JStr}
    (h : jsTrim s = a :: t) : isJsSpace a = false := by
  obtain ⟨w, hw⟩ := dropWhile_isSuffix isJsSpace (jsTrimLeft s).reverse
  have hpre : jsTrim s ++ w.reverse = jsTrimLeft s := by
    have h₂ := congrArg List.reverse hw
    simpa [jsTrim, jsTrimRight, List.reverse_append, List.reverse_reverse] using h₂
  have hu : (jsTrimLeft s) = a :: (t ++ w.reverse) := by
    rw [← hpre, h]
    simp
  exact dropWhile_head_false (by simpa [jsTrimLeft] using hu)

theorem jsTrim_revhead_not_space {s : JStr} {a : Char} {t : JStr}
    (h : (jsTrim s).reverse = a :: t) : isJsSpace a = false := by
  have h₂ : (jsTrimLeft s).reverse.dropWhile isJsSpace = a :: t := by
    simpa [jsTrim, jsTrimRight, List.reverse_reverse] using h
  exact dropWhile_head_false h₂

theorem jsTrim_eq_self_of_ends {l : JStr}
    (hhead : ∀ a t, l = a :: t → isJsSpace a = false)
    (hlast : ∀ a t, l.reverse = a :: t → isJsSpace a = false) :
    jsTrim l = l := by
  cases l with
  | nil => rfl
  | cons a t =>
    have ha : isJsSpace a = false := hhead a t rfl
    have hleft : jsTrimLeft (a :: t) = a :: t := by
      simp [jsTrimLeft, List.dropWhile_cons, ha]
    rw [jsTrim, hleft]
    cases hr : (a :: t).reverse with
    | nil => exact absurd hr (by simp)
    | cons b t2 =>
      have hb : isJsSpace b = false := hlast b t2 hr
      rw [jsTrimRight, hr, List.dropWhile_cons]
      simp only [hb, Bool.false_eq_true, if_false]
      rw [← hr, List.reverse_reverse]

theorem jsTrim_idem (s : JStr) : jsTrim (jsTrim s) = jsTrim s :=
  jsTrim_eq_self_of_ends (fun a t h => jsTrim_head_not_space h)
    (fun a t h => jsTrim_revhead_not_space h)

theorem joinSep_ne_nil {sep : JStr} {ps : List JStr} (hne : ps ≠ [])
    (hall : ∀ p ∈ ps, p ≠ []) : joinSep sep ps ≠ [] := by
  cases ps with
  | nil => exact absurd rfl hne
  | cons x xs =>
    cases xs with
    | nil => simpa [joinSep] using hall x (by simp)
    | cons y rest =>
      have hx : x ≠ [] := hall x (by simp)
      simp only [joinSep, ne_eq]
      intro hc
      rcases List.append_eq_nil.mp hc with ⟨hc1, hc2⟩
      rcases List.append_eq_nil.mp hc1 with ⟨hx0, hs0⟩
      exact hx hx0

theorem joinSep_head {sep : JStr} {x : JStr} {xs : List JStr} (hx : x ≠ []) :
    (joinSep sep (x :: xs)).head? = x.head? := by
  cases xs with
  | nil => rfl
  | cons y rest =>
    cases x with
    | nil => exact absurd rfl hx
    | cons a t => rfl

theorem joinSep_revhead {sep : JStr} :
    ∀ {ps : List JStr}, ps ≠ [] → (∀ p ∈ ps, p ≠ []) →
    ∃ q, q ∈ ps ∧ (joinSep sep ps).reverse.head? = q.reverse.head? := by
  intro ps
  induction ps with
  | nil => intro h; exact absurd rfl h
  | cons x xs ih =>
    intro hne hall
    cases xs with
    | nil => exact ⟨x, by simp, rfl⟩
    | cons y rest =>
      obtain ⟨q, hq, hqe⟩ := ih (by simp) (fun p hp => hall p (by simp [hp]))
      refine ⟨q, by simp [hq], ?_⟩
      have hjoin : joinSep sep (x :: y :: rest) = x ++ sep ++ joinSep sep (y :: rest) := rfl
      rw [hjoin, List.reverse_append]
      have hjne : joinSep sep (y :: rest) ≠ [] :=
        joinSep_ne_nil (by simp) (fun p hp => hall p (by simp [hp]))
      cases hj : (joinSep sep (y :: rest)).reverse with
      | nil =>
        have : joinSep sep (y :: rest) = [] := by
          simpa using congrArg List.reverse hj
        exact absurd this hjne
      | cons b tb =>
        rw [hj] at hqe
        simpa using hqe

theorem jsTrim_joinSep_trimmed (ps : List JStr)
    (hps : ∀ p ∈ ps, p ≠ [] ∧ jsTrim p = p) :
    jsTrim (joinSep (jstrOf " ") ps) = joinSep (jstrOf " ") ps := by
  cases ps with
  | nil => rfl
  | cons x xs =>
    apply jsTrim_eq_self_of_ends
    · intro a t h
      have hx := hps x (by simp)
      have hh : (joinSep (jstrOf " ") (x :: xs)).head? = x.head? := joinSep_head hx.1
      rw [h] at hh
      cases hxv : x with
      | nil => exact absurd hxv hx.1
      | cons b tb =>
        rw [hxv] at hh
        have hab : a = b := by simpa using hh
        have hb : isJsSpace b = false :=
          jsTrim_head_not_space (s := x) (by rw [hx.2, hxv])
        rw [hab]
        exact hb
    · intro a t h
      obtain ⟨q, hq, hqe⟩ :=
        @joinSep_revhead (jstrOf " ") (x :: xs) (by simp)
          (fun p hp => (hps p hp).1)
      rw [h] at hqe
      cases hqr : q.reverse with
      | nil =>
        have : q = [] := by simpa using congrArg List.reverse hqr
        exact absurd this (hps q hq).1
      | cons b tb =>
        rw [hqr] at hqe
        have hab : a = b := by simpa using hqe
        have hb : isJsSpace b = false :=
          jsTrim_revhead_not_space (s := q) (by rw [(hps q hq).2, hqr])
        rw [hab]
        exact hb

theorem readSegmentsText_eq_amendedSegJoin (segs : SegField) :
    readSegmentsText segs = amendedSegJoin segs := by
  cases segs with
  | notArray => rfl
  | arr items =>
    simp only [readSegmentsText, amendedSegJoin]
    apply jsTrim_joinSep_trimmed
    intro p hp
    simp only [segPieces, List.mem_filter, List.mem_map] at hp
    obtain ⟨⟨it, hit, rfl⟩, hne⟩ := hp
    refine ⟨by simpa [List.isEmpty_iff] using hne, ?_⟩
    cases it with
    | nullishSeg => simp [segPiece] at hne
    | primitiveSeg => simp [segPiece] at hne
    | objSeg tp =>
      cases tp with
      | vstr s => simpa [segPiece] using jsTrim_idem s
      | vundef => simp [segPiece] at hne
      | vnull => simp [segPiece] at hne
      | vnum n => simp [segPiece] at hne
      | vother => simp [segPiece] at hne

theorem toSafeString_eq_spec (v : JVal) :
    toSafeString v =
      if ¬(jsTrim (strOrEmpty v)).isEmpty then some (jsTrim (strOrEmpty v)) else none := by
  cases v with
  | vstr s =>
    by_cases h : (jsTrim s).isEmpty <;> simp [toSafeString, strOrEmpty, h]
  | vundef => rfl
  | vnull => rfl
  | vnum n => rfl
  | vother => rfl

/-- C3, counterexample: the legacy transcribe handler's catch block places
the thrown Error's own message text in the response body, so the body both
contains the raw exception text and varies with the exception instead of
being a fixed generic message. -/
theorem c3_index_handler_leaks_message :
    (indexTranscribeCatchResponse
        (JsThrown.errObj (jstrOf "getaddrinfo ENOTFOUND api.openai.com"))).message =
      jstrOf "getaddrinfo ENOTFOUND api.openai.com" ∧
    indexTranscribeCatchResponse (JsThrown.errObj (jstrOf "boom-a")) ≠
      indexTranscribeCatchResponse (JsThrown.errObj (jstrOf "boom-b")) := by
  refine ⟨rfl, by decide⟩

/-- C3 (amended): the chat handler, the functions/transcribe.js handler
and the v4 transcription proxy map any thrown failure of the outbound
call to a 500 whose body carries a fixed generic message independent of
the exception; the legacy transcribe/index.js handler instead answers 500
with the thrown Error's own message text. -/
theorem c3_network_failure_mapping :
    (∀ e, chatCatchResponse e =
      { status := 500,
        message := jstrOf "Unable to contact the AI service right now. Please try again later." }) ∧
    (∀ e, fnTranscribeCatchResponse e =
      { status := 500,
        message := jstrOf "Unable to contact the AI transcription service right now. Please try again later." }) ∧
    (∀ e, proxyCatchResponse e =
      { status := 500,
        message := jstrOf "Unable to contact the transcription service right now." }) ∧
    (∀ m, indexTranscribeCatchResponse (JsThrown.errObj m) =
      { status := 500, message := m }) :=
  ⟨fun e => rfl, fun e => rfl, fun e => rfl, fun m => rfl⟩

/-- C4, counterexample: for an upstream body whose text and language carry
surrounding whitespace, the functions/transcribe.js handler returns the
trimmed values while the claim as stated requires the raw upstream
values; and for an upstream body with an empty text, a non-empty segment
and a NaN duration, the cited transcribe/index.js variant keeps the empty
text (never joining the segments or substituting the no-speech literal)
and keeps the non-finite duration, while the claim requires the joined
segment text and a null duration. -/
theorem c4_shaper_counterexample :
    shapeTranscription c4Upstream ≠ claimShapeSpec c4Upstream ∧
    (shapeTranscription c4Upstream).text = jstrOf "hi" ∧
    (claimShapeSpec c4Upstream).text = jstrOf " hi " ∧
    (shapeTranscription c4Upstream).language = some (jstrOf "pt") ∧
    (claimShapeSpec c4Upstream).language = some (jstrOf " pt ") ∧
    indexShapeTranscription c4IndexUpstream =
      Except.ok { text := JVal.vstr [], duration := JVal.vnum JsNum.nanNum,
                  language := JVal.vnull } ∧
    (claimShapeSpec c4IndexUpstream).text = jstrOf "hello" ∧
    (claimShapeSpec c4IndexUpstream).duration = none := by
  refine ⟨by decide, rfl, rfl, rfl, rfl, rfl, rfl, rfl⟩

/-- C4 (amended): the functions/transcribe.js response contains the
trimmed upstream text when non-empty after trimming, else the trimmed
segment texts with blanks removed joined with single spaces when that is
non-empty, else the no-speech literal; the upstream duration when a
finite number else null; and the trimmed upstream language when
non-empty after trimming else null.  The legacy transcribe/index.js
variant instead computes the raw segment-text join first and returns the
upstream text whenever non-nullish (the empty string included, with no
no-speech literal), else that raw join, passing duration and language
through with nullish coalescing (keeping non-finite numbers and
non-string values). -/
theorem c4_shape_normalisation :
    (∀ d, shapeTranscription d = amendedShapeSpec d) ∧
    (∀ d, indexShapeTranscription d =
      (indexFallbackText d.segments).map (fun ft =>
        { text := jsNullishOr d.text (JVal.vstr ft),
          duration := jsNullishOr d.duration JVal.vnull,
          language := jsNullishOr d.language JVal.vnull })) := by
  constructor
  case right =>
    intro d
    obtain ⟨t, sg, du, la⟩ := d
    cases hf : indexFallbackText sg with
    | error e => simp [indexShapeTranscription, hf, Except.map]
    | ok ft =>
      simp only [indexShapeTranscription, hf, Except.map]
      cases t <;> cases du <;> cases la <;> rfl
  case left =>
  intro d
  simp only [shapeTranscription, amendedShapeSpec, TranscribeSuccessBody.mk.injEq]
  refine ⟨?_, by trivial, ?_⟩
  · rw [toSafeString_eq_spec]
    by_cases hts : (jsTrim (strOrEmpty d.text)).isEmpty
    · simp only [hts, not_true_eq_false, Bool.false_eq_true, if_false,
        readSegmentsText_eq_amendedSegJoin]
      by_cases hseg : (amendedSegJoin d.segments).isEmpty
      · simp [hseg]
      · simp [hseg]
    · simp [hts]
  · rw [toSafeString_eq_spec]

theorem readProvidedTokenRest_eq_dedicated (req : ProxyRequest) :
    readProvidedTokenRest req = claimTokenPriority.dedicatedThenQuery req := by
  simp only [readProvidedTokenRest, claimTokenPriority.dedicatedThenQuery]
  cases hop : req.openaiProxyTokenHeader with
  | none =>
    cases hpt : req.proxyTokenHeader with
    | none => rfl
    | some h =>
      by_cases hh : (jsTrim h).isEmpty <;> simp [hh]
  | some h =>
    by_cases hh : h.isEmpty
    · simp only [hh, Bool.not_true, Bool.false_eq_true, if_false, if_true]
      cases hpt : req.proxyTokenHeader with
      | none => rfl
      | some h2 =>
        by_cases hh2 : (jsTrim h2).isEmpty <;> simp [hh2]
    · simp only [hh, Bool.not_false, Bool.false_eq_true, if_false, if_true]
      by_cases ht : (jsTrim h).isEmpty <;> simp [ht]

/-- C7, counterexample: for a request carrying only a bearer authorization
header, the claimed priority order yields the bearer token (as the v4
readProvidedToken does), but the classic helper getProvidedToken yields
nothing because it reads only the x-api-key and x-functions-key
headers. -/
theorem c7_classic_helper_ignores_bearer :
    readProvidedToken c7BearerOnlyRequest = some (jstrOf "tok") ∧
    claimTokenPriority c7BearerOnlyRequest = some (jstrOf "tok") ∧
    getProvidedToken c7BearerOnlyClassic = none := by
  refine ⟨rfl, rfl, rfl⟩

/-- C7 (amended): the v4 readProvidedToken realises the claimed priority
order - trimmed bearer capture (even when blank), then the first
non-empty dedicated proxy-token header trimmed when non-blank, then the
trimmed query parameter - while the classic helper getProvidedToken reads
only the x-api-key header, falling back to x-functions-key, and is
independent of the authorization header and the url token. -/
theorem c7_token_source_priority :
    (∀ req, readProvidedToken req = claimTokenPriority req) ∧
    (∀ req : ClassicRequest, req.hasHeaders = true →
      getProvidedToken req =
        (match req.apiKeyHeader with
         | some h => if h.isEmpty then req.functionsKeyHeader else some h
         | none => req.functionsKeyHeader)) ∧
    (∀ (req : ClassicRequest) (a u : Option JStr),
      getProvidedToken req =
        getProvidedToken { req with authorizationHeader := a, urlToken := u }) := by
  refine ⟨?_, ?_, ?_⟩
  · intro req
    simp only [readProvidedToken, claimTokenPriority]
    cases ha : req.authorizationHeader with
    | none => exact readProvidedTokenRest_eq_dedicated req
    | some ah =>
      by_cases hae : ah.isEmpty
      · simpa [hae] using readProvidedTokenRest_eq_dedicated req
      · simp only [hae, Bool.not_false, Bool.false_eq_true, if_false, if_true]
        cases hc : jsBearerCapture ah with
        | none => exact readProvidedTokenRest_eq_dedicated req
        | some cap =>
          by_cases hce : cap.isEmpty
          · simpa [hce] using readProvidedTokenRest_eq_dedicated req
          · simp [hce]
  · intro req hh
    simp only [getProvidedToken, hh, Bool.not_true, Bool.false_eq_true, if_false]
    cases hk : req.apiKeyHeader with
    | none => rfl
    | some h =>
      by_cases he : h.isEmpty <;> simp [he]
  · intro req a u
    rfl

/-- C2, counterexample: with the provider API key unconfigured, a
non-empty configured proxy token, and an absent caller token, the classic
proxy answers 500 (POST) and 503 (GET) from its earlier API-key check
instead of the claimed 401. -/
theorem c2_classic_prechecks_shadow_401 :
    classicProxyEarly none (some (jstrOf "secret")) none RequestMethod.mPost =
      ProxyEarly.resp 500 (jstrOf "The OpenAI API key is not configured on the server.") ∧
    classicProxyEarly none (some (jstrOf "secret")) none RequestMethod.mGet =
      ProxyEarly.resp 503 (jstrOf "The OpenAI API key is not configured on the server.") := by
  refine ⟨rfl, rfl⟩

/-- C2 (amended): for every non-OPTIONS request to the v4 proxy with a
non-empty configured token, an absent, empty, or mismatched caller token
is answered 401 with the structured unauthorized body; the classic
variant answers the same 401 on GET and POST provided the provider API
key and the proxy token are configured, its earlier checks answering
503/500 otherwise. -/
theorem c2_unauthorized_guard :
    (∀ (c : JStr) (p : Option JStr) (m : RequestMethod),
      m ≠ RequestMethod.mOptions → c.isEmpty = false → jsBadToken p c = true →
      transcriptionProxyEarly c p m =
        ProxyEarly.resp 401 (jstrOf "Unauthorized request.")) ∧
    (∀ (ak pt p : Option JStr) (m : RequestMethod),
      strTruthy ak = true → strTruthy pt = true →
      jsBadToken p (pt.getD []) = true →
      (m = RequestMethod.mGet ∨ m = RequestMethod.mPost) →
      classicProxyEarly ak pt p m =
        ProxyEarly.resp 401 (jstrOf "Unauthorized request.")) := by
  constructor
  · intro c p m hm hc ht
    simp [transcriptionProxyEarly, hm, hc, ht]
  · intro ak pt p m hak hpt ht hm
    rcases hm with hm | hm <;> subst hm <;>
      simp [classicProxyEarly, hak, hpt, ht]

/-- C2 witness. -/
theorem c2_unauthorized_guard_witness :
    transcriptionProxyEarly (proxyTokenConfig (some (jstrOf "secret")) none) none
        RequestMethod.mPost =
      ProxyEarly.resp 401 (jstrOf "Unauthorized request.") ∧
    classicProxyEarly (some (jstrOf "sk-key")) (some (jstrOf "secret"))
        (some (jstrOf "wrong")) RequestMethod.mPost =
      ProxyEarly.resp 401 (jstrOf "Unauthorized request.") := by
  refine ⟨c2_unauthorized_guard.1 _ none RequestMethod.mPost (by decide) (by decide) (by decide),
    c2_unauthorized_guard.2 _ _ _ RequestMethod.mPost (by decide) (by decide) (by decide)
      (Or.inr rfl)⟩

theorem find_eq_of_unique_match (l₁ l₂ : List (JStr × JStr)) (p : JStr × JStr → Bool)
    (hmem : ∀ x, x ∈ l₁ ↔ x ∈ l₂)
    (huniq : ∀ x ∈ l₁, ∀ y ∈ l₁, p x = true → p y = true → x = y) :
    l₁.find? p = l₂.find? p := by
  cases h₁ : l₁.find? p with
  | some x =>
    cases h₂ : l₂.find? p with
    | some y =>
      have hx := List.mem_of_find?_eq_some h₁
      have hy := (hmem y).mpr (List.mem_of_find?_eq_some h₂)
      rw [huniq x hx y hy (List.find?_some h₁) (List.find?_some h₂)]
    | none =>
      have := List.find?_eq_none.mp h₂ x ((hmem x).mp (List.mem_of_find?_eq_some h₁))
      exact absurd (List.find?_some h₁) (by simpa using this)
  | none =>
    cases h₂ : l₂.find? p with
    | some y =>
      have := List.find?_eq_none.mp h₁ y ((hmem y).mpr (List.mem_of_find?_eq_some h₂))
      exact absurd (List.find?_some h₂) (by simpa using this)
    | none => rfl

theorem suffix_match_unique (table : List (JStr × JStr))
    (hpair : table.Pairwise (fun a b => ¬ a.1 <:+ b.1 ∧ ¬ b.1 <:+ a.1)) :
    ∀ (nm : JStr), ∀ x ∈ table, ∀ y ∈ table,
      x.1 <:+ nm → y.1 <:+ nm → x = y := by
  intro nm x hx y hy hxs hys
  by_cases hxy : x = y
  · exact hxy
  · exfalso
    have hsym : Symmetric (fun a b : JStr × JStr => ¬ a.1 <:+ b.1 ∧ ¬ b.1 <:+ a.1) :=
      fun a b h => ⟨h.2, h.1⟩
    have hR := List.Pairwise.forall hsym hpair hx hy hxy
    rw [← List.reverse_prefix] at hxs hys
    rcases le_total x.1.length y.1.length with hle | hle
    · exact hR.1 (List.reverse_prefix.mp
        (List.prefix_of_prefix_length_le hxs hys (by simpa using hle)))
    · exact hR.2 (List.reverse_prefix.mp
        (List.prefix_of_prefix_length_le hys hxs (by simpa using hle)))

theorem tableA_no_suffix_pairs :
    extensionMimePairsA.Pairwise (fun a b => ¬ a.1 <:+ b.1 ∧ ¬ b.1 <:+ a.1) := by
  decide

theorem tableB_no_suffix_pairs :
    extensionMimePairsB.Pairwise (fun a b => ¬ a.1 <:+ b.1 ∧ ¬ b.1 <:+ a.1) := by
  decide

theorem mem_insertByKeyLenDesc {e x : JStr × JStr} :
    ∀ {l : List (JStr × JStr)}, x ∈ insertByKeyLenDesc e l ↔ x = e ∨ x ∈ l := by
  intro l
  induction l with
  | nil => simp [insertByKeyLenDesc]
  | cons y ys ih =>
    simp only [insertByKeyLenDesc]
    by_cases h : y.1.length < e.1.length
    · simp [h]
    · simp only [h, if_false, List.mem_cons, ih]
      tauto

theorem mem_stableSortAux {x : JStr × JStr} :
    ∀ {l acc : List (JStr × JStr)},
      x ∈ List.foldl (fun a e => insertByKeyLenDesc e a) acc l ↔ x ∈ l ∨ x ∈ acc := by
  intro l
  induction l with
  | nil => simp
  | cons e es ih =>
    intro acc
    simp only [List.foldl_cons, ih, mem_insertByKeyLenDesc, List.mem_cons]
    tauto

theorem mem_sortedB_iff (x : JStr × JStr) :
    x ∈ sortedExtensionMimePairsB ↔ x ∈ extensionMimePairsB := by
  simp [sortedExtensionMimePairsB, stableSortByKeyLenDesc, mem_stableSortAux]

theorem findB_insertion_eq_sorted (nm : JStr) :
    extensionMimePairsB.find? (fun e => e.1.isSuffixOf nm) =
      sortedExtensionMimePairsB.find? (fun e => e.1.isSuffixOf nm) := by
  apply find_eq_of_unique_match
  · intro x
    exact (mem_sortedB_iff x).symm
  · intro x hx y hy hpx hpy
    exact suffix_match_unique extensionMimePairsB tableB_no_suffix_pairs nm x hx y hy
      (List.isSuffixOf_iff_suffix.mp hpx) (List.isSuffixOf_iff_suffix.mp hpy)

/-- C5, counterexample: an upload declaring the generic placeholder type
application/octet-stream and named clip.mp3 resolves to audio/mpeg under
the claimed inference (and under variant A), but the part_003 variant
returns the placeholder itself because it accepts any non-empty declared
type. -/
theorem c5_placeholder_counterexample :
    (determineFileMetadataB c5PlaceholderUpload).1 = jstrOf "application/octet-stream" ∧
    claimMimeTypeB c5PlaceholderUpload = jstrOf "audio/mpeg" ∧
    (determineFileMetadataA c5PlaceholderUpload).1 = jstrOf "audio/mpeg" := by
  refine ⟨rfl, rfl, rfl⟩

/-- C5 (amended): variant A (functions/transcribe.js) infers the MIME
type exactly as claimed - declared type when present and not the generic
placeholder, else longest-match case-insensitive extension lookup, else
the audio/webm default - while the part_003 variant uses any non-empty
declared type, the placeholder included, before the same lookup; in both
tables no extension is a suffix of another, so at most one entry matches
any name and first-match coincides with longest-match; an upload named
clip.opus with no declared type resolves to audio/opus under variant A
and audio/ogg under part_003, keeping its name. -/
theorem c5_metadata_inference :
    (∀ f, (determineFileMetadataA f).1 = claimMimeTypeA f) ∧
    (∀ f, (determineFileMetadataB f).1 = amendedMimeTypeB f) ∧
    (∀ nm, ∀ x ∈ extensionMimePairsA, ∀ y ∈ extensionMimePairsA,
        x.1 <:+ nm → y.1 <:+ nm → x = y) ∧
    (∀ nm, ∀ x ∈ extensionMimePairsB, ∀ y ∈ extensionMimePairsB,
        x.1 <:+ nm → y.1 <:+ nm → x = y) ∧
    determineFileMetadataA c5ClipOpusUpload = (jstrOf "audio/opus", jstrOf "clip.opus") ∧
    determineFileMetadataB c5ClipOpusUpload = (jstrOf "audio/ogg", jstrOf "clip.opus") := by
  refine ⟨?_, ?_, suffix_match_unique _ tableA_no_suffix_pairs,
    suffix_match_unique _ tableB_no_suffix_pairs, rfl, rfl⟩
  · intro f
    cases hft : f.ftype with
    | vstr s =>
      by_cases hcond : (!s.isEmpty && !(s == jstrOf "application/octet-stream")) = true
      · simp [determineFileMetadataA, claimMimeTypeA, hft, hcond]
      · simp [determineFileMetadataA, claimMimeTypeA, claimExtMimeA, hft, hcond]
    | vundef => simp [determineFileMetadataA, claimMimeTypeA, claimExtMimeA, hft]
    | vnull => simp [determineFileMetadataA, claimMimeTypeA, claimExtMimeA, hft]
    | vnum n => simp [determineFileMetadataA, claimMimeTypeA, claimExtMimeA, hft]
    | vother => simp [determineFileMetadataA, claimMimeTypeA, claimExtMimeA, hft]
  · intro f
    cases hft : f.ftype with
    | vstr s =>
      by_cases hcond : s.isEmpty = true
      · simp [determineFileMetadataB, amendedMimeTypeB, claimExtMimeB, hft, hcond,
          findB_insertion_eq_sorted]
      · simp [determineFileMetadataB, amendedMimeTypeB, hft, hcond]
    | vundef =>
      simp [determineFileMetadataB, amendedMimeTypeB, claimExtMimeB, hft,
        findB_insertion_eq_sorted]
    | vnull =>
      simp [determineFileMetadataB, amendedMimeTypeB, claimExtMimeB, hft,
        findB_insertion_eq_sorted]
    | vnum n =>
      simp [determineFileMetadataB, amendedMimeTypeB, claimExtMimeB, hft,
        findB_insertion_eq_sorted]
    | vother =>
      simp [determineFileMetadataB, amendedMimeTypeB, claimExtMimeB, hft,
        findB_insertion_eq_sorted]

/-- C7 witness. -/
theorem c7_token_source_priority_witness :
    getProvidedToken
        { hasHeaders := true, authorizationHeader := none,
          apiKeyHeader := some (jstrOf "k1"), functionsKeyHeader := none,
          urlToken := none } = some (jstrOf "k1") :=
  c7_token_source_priority.2.1
    { hasHeaders := true, authorizationHeader := none,
      apiKeyHeader := some (jstrOf "k1"), functionsKeyHeader := none,
      urlToken := none } rfl

/-- C5 witness. -/
theorem c5_metadata_inference_witness :
    ((jstrOf ".opus", jstrOf "audio/ogg") : JStr × JStr) =
      (jstrOf ".opus", jstrOf "audio/ogg") :=
  c5_metadata_inference.2.2.2.1 (jstrOf "clip.opus")
    (jstrOf ".opus", jstrOf "audio/ogg") (by decide)
    (jstrOf ".opus", jstrOf "audio/ogg") (by decide) (by decide) (by decide)
